import Mathlib

/-!
Verification of the chess MCP server (src/server.py).

The chess rules library (python-chess) consumed by the server is embedded
concretely below (namespace `Chess`): board representation, FEN
parsing/serialization, legal move generation, SAN rendering, and move
application, matching the observable behavior the server relies on.
The server's tool functions (namespace `Server`) are translated directly
from src/server.py; external collaborators (the Stockfish engine and the
Lichess HTTP API) are passed in as function parameters so that theorems can
quantify over every possible collaborator behavior.
-/

namespace Chess

/-- Piece kinds, mirroring python-chess piece types. -/
inductive PieceKind
| pawn
| knight
| bishop
| rook
| queen
| king
deriving DecidableEq, Repr

/-- A colored piece; `color = true` is White (python-chess `chess.WHITE`). -/
structure Piece where
  color : Bool
  kind : PieceKind
deriving DecidableEq, Repr

/-- Board squares are 0..63 in python-chess numbering: a1 = 0, h8 = 63,
square = rank * 8 + file. The board is a 64-entry list indexed by square. -/
abbrev BoardArr := List (Option Piece)

def pieceAt (bd : BoardArr) (sq : Nat) : Option Piece := bd.getD sq none

/-- A move in coordinate form, as python-chess `chess.Move` (drops are not
modelled; the server plays standard chess only). The null move is
`⟨0, 0, none⟩`, matching `Move.null()`. -/
structure Move where
  fromSq : Nat
  toSq : Nat
  promotion : Option PieceKind
deriving DecidableEq, Repr

/-- Full position state, as python-chess `chess.Board`. -/
structure Position where
  board : BoardArr
  turn : Bool
  castleWK : Bool
  castleWQ : Bool
  castleBK : Bool
  castleBQ : Bool
  epSquare : Option Nat
  halfmove : Nat
  fullmove : Nat
deriving DecidableEq, Repr

/-- Shift a square by a (file, rank) delta, returning `none` off-board. -/
def shift (sq : Nat) (df dr : Int) : Option Nat :=
  let f : Int := (sq % 8 : Nat) + df
  let r : Int := (sq / 8 : Nat) + dr
  if 0 ≤ f ∧ f < 8 ∧ 0 ≤ r ∧ r < 8 then some (r * 8 + f).toNat else none

/-- Progress measure of a square along direction `(df, dr)`; every `shift`
step in that direction strictly increases it, so slider rays never revisit
their origin. -/
def dirMeasure (df dr : Int) (x : Nat) : Int := df * (x % 8 : Nat) + dr * (x / 8 : Nat)

def fileChar (sq : Nat) : Char := Char.ofNat (97 + sq % 8)

def rankChar (sq : Nat) : Char := Char.ofNat (49 + sq / 8)

/-- Square name such as "e4" (python-chess `square_name`). -/
def squareName (sq : Nat) : String := String.mk [fileChar sq, rankChar sq]

def parseSquare (c1 c2 : Char) : Option Nat :=
  if 97 ≤ c1.toNat ∧ c1.toNat ≤ 104 ∧ 49 ≤ c2.toNat ∧ c2.toNat ≤ 56 then
    some ((c2.toNat - 49) * 8 + (c1.toNat - 97))
  else none

/-- Lowercase piece symbol as in python-chess `PIECE_SYMBOLS`. -/
def pieceSymbol : PieceKind → Char
| .pawn => 'p'
| .knight => 'n'
| .bishop => 'b'
| .rook => 'r'
| .queen => 'q'
| .king => 'k'

def symbolPiece : Char → Option PieceKind
| 'p' => some .pawn
| 'n' => some .knight
| 'b' => some .bishop
| 'r' => some .rook
| 'q' => some .queen
| 'k' => some .king
| _ => none

/-- Parse a UCI move string, mirroring `chess.Move.from_uci`: "0000" is the
null move; otherwise 4 or 5 characters, two square names plus an optional
promotion symbol, with equal origin and target rejected. Crazyhouse drop
notation is not modelled (never legal on a standard board). -/
def Move.from_uci (s : String) : Option Move :=
  if s = "0000" then some ⟨0, 0, none⟩ else
  match s.data with
  | [a, b, c, d] => do
    let f ← parseSquare a b
    let t ← parseSquare c d
    if f = t then none else some ⟨f, t, none⟩
  | [a, b, c, d, e] => do
    let f ← parseSquare a b
    let t ← parseSquare c d
    let p ← symbolPiece e
    if f = t then none else some ⟨f, t, some p⟩
  | _ => none

/-- Render a move in UCI, mirroring `str(chess.Move)`: the null move prints
as "0000", others as origin square, target square, promotion symbol. -/
def Move.uci (m : Move) : String :=
  if m.fromSq = 0 ∧ m.toSq = 0 ∧ m.promotion = none then "0000"
  else
    squareName m.fromSq ++ squareName m.toSq ++
      (match m.promotion with
       | some k => String.mk [pieceSymbol k]
       | none => "")

def knightDeltas : List (Int × Int) :=
  [(1, 2), (2, 1), (2, -1), (1, -2), (-1, -2), (-2, -1), (-2, 1), (-1, 2)]

def kingDeltas : List (Int × Int) :=
  [(1, 0), (1, 1), (0, 1), (-1, 1), (-1, 0), (-1, -1), (0, -1), (1, -1)]

def bishopDirs : List (Int × Int) := [(1, 1), (1, -1), (-1, 1), (-1, -1)]

def rookDirs : List (Int × Int) := [(1, 0), (-1, 0), (0, 1), (0, -1)]

/-- Walk a slider ray from `cur` in direction `(df, dr)`: empty squares are
included, the first occupied square is included when it holds an enemy piece
(`c` is the mover's color), and the walk stops at any occupied square. -/
def rayTargets (bd : BoardArr) (c : Bool) (df dr : Int) : Nat → Nat → List Nat
| 0, _ => []
| fuel + 1, cur =>
  match shift cur df dr with
  | none => []
  | some t =>
    match pieceAt bd t with
    | none => t :: rayTargets bd c df dr fuel t
    | some p => if p.color = c then [] else [t]

/-- One-step targets (knight, king): on-board squares not occupied by a
piece of the mover's color. -/
def stepTargets (bd : BoardArr) (c : Bool) (sq : Nat) (deltas : List (Int × Int)) : List Nat :=
  deltas.filterMap fun d =>
    match shift sq d.1 d.2 with
    | none => none
    | some t =>
      match pieceAt bd t with
      | none => some t
      | some p => if p.color = c then none else some t

def promoKinds : List PieceKind := [.queen, .rook, .bishop, .knight]

/-- Pawn pseudo-legal moves from `sq`: single and double pushes, diagonal
captures including the en-passant square, with promotions on the last rank. -/
def pawnMoves (pos : Position) (sq : Nat) : List Move :=
  let c := pos.turn
  let dr : Int := if c then 1 else -1
  let single : List Nat :=
    match shift sq 0 dr with
    | some t => if pieceAt pos.board t = none then [t] else []
    | none => []
  let doubleMoves : List Move :=
    match shift sq 0 dr, shift sq 0 (2 * dr) with
    | some t1, some t2 =>
      if sq / 8 = (if c then 1 else 6) ∧ pieceAt pos.board t1 = none ∧
          pieceAt pos.board t2 = none then
        [⟨sq, t2, none⟩]
      else []
    | _, _ => []
  let caps : List Nat :=
    [(-1 : Int), 1].filterMap fun df =>
      match shift sq df dr with
      | some t =>
        if (pieceAt pos.board t).map Piece.color = some (!c) ∨
            (pieceAt pos.board t = none ∧ pos.epSquare = some t) then
          some t
        else none
      | none => none
  let promoteOrSingle : Nat → List Move := fun t =>
    if t / 8 = (if c then 7 else 0) then promoKinds.map (fun k => ⟨sq, t, some k⟩)
    else [⟨sq, t, none⟩]
  ((single ++ caps).map promoteOrSingle).flatten ++ doubleMoves

/-- Pseudo-legal moves of the piece on `sq` (castling handled separately). -/
def pseudoMovesFrom (pos : Position) (sq : Nat) : List Move :=
  match pieceAt pos.board sq with
  | none => []
  | some p =>
    if p.color = pos.turn then
      match p.kind with
      | .pawn => pawnMoves pos sq
      | .knight => (stepTargets pos.board p.color sq knightDeltas).map fun t => ⟨sq, t, none⟩
      | .king => (stepTargets pos.board p.color sq kingDeltas).map fun t => ⟨sq, t, none⟩
      | .bishop =>
        ((bishopDirs.map fun d => rayTargets pos.board p.color d.1 d.2 7 sq).flatten).map
          fun t => ⟨sq, t, none⟩
      | .rook =>
        ((rookDirs.map fun d => rayTargets pos.board p.color d.1 d.2 7 sq).flatten).map
          fun t => ⟨sq, t, none⟩
      | .queen =>
        (((bishopDirs ++ rookDirs).map fun d =>
            rayTargets pos.board p.color d.1 d.2 7 sq).flatten).map
          fun t => ⟨sq, t, none⟩
    else []

def pseudoLegalMoves (pos : Position) : List Move :=
  ((List.range 64).map (pseudoMovesFrom pos)).flatten

/-- Does the piece `p` sitting on `s` attack `target`? Slider rays stop at
the first occupied square, which is itself attacked. -/
def attacksSquare (bd : BoardArr) (s : Nat) (p : Piece) (target : Nat) : Bool :=
  match p.kind with
  | .pawn =>
    let dr : Int := if p.color then 1 else -1
    shift s (-1) dr = some target || shift s 1 dr = some target
  | .knight => knightDeltas.any fun d => shift s d.1 d.2 = some target
  | .king => kingDeltas.any fun d => shift s d.1 d.2 = some target
  | .bishop => bishopDirs.any fun d => target ∈ rayTargets bd p.color d.1 d.2 7 s
  | .rook => rookDirs.any fun d => target ∈ rayTargets bd p.color d.1 d.2 7 s
  | .queen => (bishopDirs ++ rookDirs).any fun d => target ∈ rayTargets bd p.color d.1 d.2 7 s

/-- Is `target` attacked by any piece of color `byColor`? -/
def isAttackedBy (bd : BoardArr) (target : Nat) (byColor : Bool) : Bool :=
  (List.range 64).any fun s =>
    match pieceAt bd s with
    | some p => p.color = byColor && attacksSquare bd s p target
    | none => false

def kingSquare (bd : BoardArr) (c : Bool) : Option Nat :=
  (List.range 64).find? fun s => pieceAt bd s = some ⟨c, .king⟩

/-- Is `m` an en-passant capture (python-chess `Board.is_en_passant`)? -/
def isEnPassantMove (pos : Position) (m : Move) : Bool :=
  pos.epSquare = some m.toSq &&
    (match pieceAt pos.board m.fromSq with
     | some p => p.kind = PieceKind.pawn
     | none => false) &&
    (m.toSq + 7 = m.fromSq || m.toSq + 9 = m.fromSq ||
     m.fromSq + 7 = m.toSq || m.fromSq + 9 = m.toSq) &&
    pieceAt pos.board m.toSq = none

/-- Is `m` a capture (python-chess `Board.is_capture`)? -/
def isCaptureMove (pos : Position) (m : Move) : Bool :=
  (match pieceAt pos.board m.toSq with
   | some q => q.color = !pos.turn
   | none => false) || isEnPassantMove pos m

/-- Board change of move `m`: en-passant removal, promotion replacement,
and the castling rook move (king moving two files). -/
def applyMoveBoard (pos : Position) (m : Move) : BoardArr :=
  match pieceAt pos.board m.fromSq with
  | none => pos.board
  | some p =>
    let bd0 := pos.board
    let bd1 :=
      if isEnPassantMove pos m then bd0.set ((m.fromSq / 8) * 8 + m.toSq % 8) none else bd0
    let bd2 := (bd1.set m.fromSq none).set m.toSq
      (some (match m.promotion with
             | some k => ⟨p.color, k⟩
             | none => p))
    if p.kind = PieceKind.king then
      if m.toSq = m.fromSq + 2 then
        (bd2.set (m.fromSq + 3) none).set (m.fromSq + 1) (some ⟨p.color, .rook⟩)
      else if m.fromSq = m.toSq + 2 then
        (bd2.set (m.fromSq - 4) none).set (m.fromSq - 1) (some ⟨p.color, .rook⟩)
      else bd2
    else bd2

/-- A pseudo-legal move is legal when the mover's king is not attacked
afterwards (no own king on the board makes every pseudo-legal move legal,
as in python-chess). -/
def isLegalPseudo (pos : Position) (m : Move) : Bool :=
  let bd := applyMoveBoard pos m
  match kingSquare bd pos.turn with
  | some k => !isAttackedBy bd k (!pos.turn)
  | none => true

/-- Castling moves, generated fully legal: rights present, king and rook on
their home squares, the squares between empty, and the king's path (origin,
transit, destination) unattacked. -/
def castlingMoves (pos : Position) : List Move :=
  let c := pos.turn
  let base : Nat := if c then 0 else 56
  let bd := pos.board
  let kSq := base + 4
  let kingHome := pieceAt bd kSq = some ⟨c, .king⟩
  let safe : Nat → Bool := fun s => !isAttackedBy bd s (!c)
  let kside :=
    if (if c then pos.castleWK else pos.castleBK) ∧ kingHome ∧
        pieceAt bd (base + 7) = some ⟨c, .rook⟩ ∧
        pieceAt bd (base + 5) = none ∧ pieceAt bd (base + 6) = none ∧
        (safe kSq && safe (base + 5) && safe (base + 6)) = true then
      [Move.mk kSq (base + 6) none]
    else []
  let qside :=
    if (if c then pos.castleWQ else pos.castleBQ) ∧ kingHome ∧
        pieceAt bd base = some ⟨c, .rook⟩ ∧
        pieceAt bd (base + 1) = none ∧ pieceAt bd (base + 2) = none ∧
        pieceAt bd (base + 3) = none ∧
        (safe kSq && safe (base + 3) && safe (base + 2)) = true then
      [Move.mk kSq (base + 2) none]
    else []
  kside ++ qside

def legalMoves (pos : Position) : List Move :=
  (pseudoLegalMoves pos).filter (isLegalPseudo pos) ++ castlingMoves pos

/-- Is the side to move in check? -/
def Position.isCheck (pos : Position) : Bool :=
  match kingSquare pos.board pos.turn with
  | some k => isAttackedBy pos.board k (!pos.turn)
  | none => false

def Position.isCheckmate (pos : Position) : Bool :=
  pos.isCheck && (legalMoves pos).isEmpty

/-- Apply a move to the full position state (python-chess `Board.push`):
board change, castling-rights update, en-passant square, halfmove clock,
fullmove number, and turn flip. -/
def Position.push (pos : Position) (m : Move) : Position :=
  match pieceAt pos.board m.fromSq with
  | none => { pos with turn := !pos.turn }
  | some p =>
    let capture := isCaptureMove pos m
    let bd := applyMoveBoard pos m
    let kingMoved := fun (col : Bool) => p.kind = PieceKind.king && p.color = col
    let touched := fun (s : Nat) => m.fromSq = s || m.toSq = s
    { board := bd
      turn := !pos.turn
      castleWK := pos.castleWK && !touched 7 && !kingMoved true
      castleWQ := pos.castleWQ && !touched 0 && !kingMoved true
      castleBK := pos.castleBK && !touched 63 && !kingMoved false
      castleBQ := pos.castleBQ && !touched 56 && !kingMoved false
      epSquare :=
        if p.kind = PieceKind.pawn ∧ m.toSq = m.fromSq + 16 then some (m.fromSq + 8)
        else if p.kind = PieceKind.pawn ∧ m.fromSq = m.toSq + 16 then some (m.fromSq - 8)
        else none
      halfmove := if p.kind = PieceKind.pawn ∨ capture = true then 0 else pos.halfmove + 1
      fullmove := if pos.turn then pos.fullmove else pos.fullmove + 1 }

def splitOnChar (sep : Char) (l : List Char) : List (List Char) :=
  l.foldr
    (fun c acc =>
      match acc with
      | [] => [[c]]
      | g :: gs => if c = sep then [] :: (g :: gs) else (c :: g) :: gs)
    [[]]

/-- Piece from a FEN letter: uppercase is White, lowercase is Black. -/
def charPiece (c : Char) : Option Piece :=
  if 65 ≤ c.toNat ∧ c.toNat ≤ 90 then
    (symbolPiece (Char.ofNat (c.toNat + 32))).map fun k => ⟨true, k⟩
  else (symbolPiece c).map fun k => ⟨false, k⟩

/-- Expand one FEN rank: digits are runs of empty squares (two consecutive
digits rejected, as in python-chess `set_fen`), letters are pieces. -/
def expandRow : List Char → Bool → Option (List (Option Piece))
| [], _ => some []
| c :: rest, prevDigit =>
  if 49 ≤ c.toNat ∧ c.toNat ≤ 56 then
    if prevDigit then none
    else (expandRow rest true).map fun tail => List.replicate (c.toNat - 48) none ++ tail
  else
    match charPiece c with
    | some p => (expandRow rest false).map fun tail => some p :: tail
    | none => none

/-- Parse the piece-placement field: 8 ranks from rank 8 down to rank 1,
each expanding to exactly 8 squares. -/
def parseBoardRows (rows : List (List Char)) : Option BoardArr :=
  if rows.length = 8 then do
    let expanded ← rows.mapM fun r => expandRow r false
    if expanded.all fun r => r.length = 8 then some expanded.reverse.flatten else none
  else none

def parseCastlingChars : List Char → (Bool × Bool × Bool × Bool) → Option (Bool × Bool × Bool × Bool)
| [], acc => some acc
| c :: rest, (wk, wq, bk, bq) =>
  match c with
  | 'K' => parseCastlingChars rest (true, wq, bk, bq)
  | 'Q' => parseCastlingChars rest (wk, true, bk, bq)
  | 'k' => parseCastlingChars rest (wk, wq, true, bq)
  | 'q' => parseCastlingChars rest (wk, wq, bk, true)
  | _ => none

def parseEpField : List Char → Option (Option Nat)
| ['-'] => some none
| [a, b] => (parseSquare a b).map some
| _ => none

def parseNatDigits : List Char → Nat → Option Nat
| [], acc => some acc
| c :: rest, acc =>
  if 48 ≤ c.toNat ∧ c.toNat ≤ 57 then parseNatDigits rest (acc * 10 + (c.toNat - 48))
  else none

def parseNatChars (l : List Char) : Option Nat :=
  if l = [] then none else parseNatDigits l 0

/-- Parse a FEN string (python-chess `Board(fen)` / `set_fen`): the piece
placement is required, later fields default to "w", "-", "-", "0", "1";
more than six fields is an error; the fullmove number is at least 1. -/
def parseFen (s : String) : Option Position :=
  let parts := (splitOnChar ' ' s.data).filter fun p => p ≠ []
  if parts.length = 0 ∨ parts.length > 6 then none
  else do
    let bd ← parseBoardRows (splitOnChar '/' (parts.getD 0 []))
    let turn ←
      match parts.getD 1 ['w'] with
      | ['w'] => some true
      | ['b'] => some false
      | _ => none
    let castles ←
      (if parts.getD 2 ['-'] = ['-'] then some (false, false, false, false)
       else parseCastlingChars (parts.getD 2 ['-']) (false, false, false, false))
    let ep ← parseEpField (parts.getD 3 ['-'])
    let half ← parseNatChars (parts.getD 4 ['0'])
    let full ← parseNatChars (parts.getD 5 ['1'])
    some ⟨bd, turn, castles.1, castles.2.1, castles.2.2.1, castles.2.2.2, ep, half, max full 1⟩

def pieceCharOf (p : Piece) : Char :=
  if p.color then Char.ofNat ((pieceSymbol p.kind).toNat - 32) else pieceSymbol p.kind

/-- One rank of the FEN placement field, with empty runs as digits. -/
def rowChars (bd : BoardArr) (r : Nat) : List Char :=
  let step : List Char × Nat → Nat → List Char × Nat := fun st f =>
    match pieceAt bd (r * 8 + f) with
    | none => (st.1, st.2 + 1)
    | some p =>
      (st.1 ++ (if st.2 > 0 then [Char.ofNat (48 + st.2)] else []) ++ [pieceCharOf p], 0)
  let fin := (List.range 8).foldl step ([], 0)
  fin.1 ++ (if fin.2 > 0 then [Char.ofNat (48 + fin.2)] else [])

def joinWithSlash : List (List Char) → List Char
| [] => []
| [r] => r
| r :: rest => r ++ '/' :: joinWithSlash rest

def placementChars (bd : BoardArr) : List Char :=
  joinWithSlash (((List.range 8).reverse).map (rowChars bd))

/-- Is some legal en-passant capture available (python-chess
`has_legal_en_passant`, the default `en_passant="legal"` FEN convention)? -/
def hasLegalEp (pos : Position) : Bool :=
  pos.epSquare.isSome && (legalMoves pos).any fun m => isEnPassantMove pos m

/-- Serialize a position to FEN (python-chess `Board.fen()`): the
en-passant field is shown only when a legal en-passant capture exists. -/
def Position.fen (pos : Position) : String :=
  let castlingStr :=
    (if pos.castleWK then "K" else "") ++ (if pos.castleWQ then "Q" else "") ++
      (if pos.castleBK then "k" else "") ++ (if pos.castleBQ then "q" else "")
  String.mk (placementChars pos.board) ++ " " ++ (if pos.turn then "w" else "b") ++ " " ++
    (if castlingStr = "" then "-" else castlingStr) ++ " " ++
    (match pos.epSquare with
     | some sq => if hasLegalEp pos then squareName sq else "-"
     | none => "-") ++ " " ++
    toString pos.halfmove ++ " " ++ toString pos.fullmove

/-- SAN rendering of a move (python-chess `Board.san`): castling, piece
letter, disambiguation against other legal moves of the same piece kind to
the same target, capture mark, target square, promotion suffix, and a
check or checkmate suffix from the resulting position. -/
def Position.san (pos : Position) (m : Move) : String :=
  match pieceAt pos.board m.fromSq with
  | none => "--"
  | some p =>
    let body :=
      if p.kind = PieceKind.king ∧ (m.toSq = m.fromSq + 2 ∨ m.fromSq = m.toSq + 2) then
        if m.toSq = m.fromSq + 2 then "O-O" else "O-O-O"
      else
        let capture := isCaptureMove pos m
        let target := squareName m.toSq
        let promoSuffix :=
          match m.promotion with
          | some k => "=" ++ String.mk [Char.ofNat ((pieceSymbol k).toNat - 32)]
          | none => ""
        if p.kind = PieceKind.pawn then
          (if capture then String.mk [fileChar m.fromSq] ++ "x" else "") ++ target ++ promoSuffix
        else
          let others := (legalMoves pos).filter fun mo =>
            mo.toSq = m.toSq && mo.fromSq ≠ m.fromSq &&
              ((pieceAt pos.board mo.fromSq).map Piece.kind = some p.kind)
          let sameFile := others.any fun mo => mo.fromSq % 8 = m.fromSq % 8
          let sameRank := others.any fun mo => mo.fromSq / 8 = m.fromSq / 8
          let disamb :=
            if others.isEmpty then ""
            else
              (if sameRank || !sameFile then String.mk [fileChar m.fromSq] else "") ++
                (if sameFile then String.mk [rankChar m.fromSq] else "")
          String.mk [Char.ofNat ((pieceSymbol p.kind).toNat - 32)] ++ disamb ++
            (if capture then "x" else "") ++ target ++ promoSuffix
    let after := pos.push m
    body ++ (if after.isCheckmate then "#" else if after.isCheck then "+" else "")

def startFen : String := "rnbqkbnr/pppppppp/8/8/8/8/PPPPPPPP/RNBQKBNR w KQkq - 0 1"

end Chess

namespace Server

/-- An engine score, observed through `Score.is_mate()`, `Score.mate()`
and `Score.score()` of python-chess. -/
inductive Score
| cp (v : Int)
| mate (v : Int)
deriving DecidableEq, Repr

def Score.is_mate : Score → Bool
| .mate _ => true
| .cp _ => false

def Score.mateValue : Score → Option Int
| .mate v => some v
| .cp _ => none

def Score.scoreValue : Score → Option Int
| .cp v => some v
| .mate _ => none

/-- A python-chess `PovScore`, observed through its `.white()` method
(the White-perspective score), which is all the server uses. -/
structure PovScore where
  white : Score
deriving DecidableEq, Repr

/-- The engine's `analyse` result (python-chess `InfoDict`): a dictionary
whose "score" and "pv" keys may each be absent. Accessing an absent key in
the Python source raises `KeyError`. -/
structure InfoDict where
  score : Option PovScore
  pv : Option (List Chess.Move)
deriving DecidableEq, Repr

/-- The search limit handed to the engine, `chess.engine.Limit(depth=...,
time=5.0)` at src/server.py line 64. -/
structure Limit where
  depth : Int
  time : Nat
deriving DecidableEq, Repr

/-- Success and error response shapes of `analyze_position`
(src/server.py lines 71-84): one constructor per returned dictionary
shape. -/
inductive AnalyzeResult
| ok (fen : String) (evaluationType : String) (evaluationValue : Option Int)
    (best_move : Option String) (principal_variation : List String)
    (depth : Int) (turn : String)
| failure (error : String)
deriving DecidableEq, Repr

def AnalyzeResult.depthField : AnalyzeResult → Option Int
| .ok _ _ _ _ _ d _ => some d
| .failure _ => none

def AnalyzeResult.best_moveField : AnalyzeResult → Option (Option String)
| .ok _ _ _ bm _ _ _ => some bm
| .failure _ => none

def AnalyzeResult.pvField : AnalyzeResult → Option (List String)
| .ok _ _ _ _ pv _ _ => some pv
| .failure _ => none

def AnalyzeResult.isOk : AnalyzeResult → Bool
| .ok _ _ _ _ _ _ _ => true
| .failure _ => false

/-- The limit `analyze_position` hands to the engine: the requested depth
(defaulting to the configured `STOCKFISH_DEPTH` when omitted, line 55-56)
clamped to 25 (line 60), with the fixed 5-second time ceiling (line 64). -/
def applied_limit (STOCKFISH_DEPTH : Int) (depth : Option Int) : Limit :=
  ⟨min (depth.getD STOCKFISH_DEPTH) 25, 5⟩

/-- `analyze_position` (src/server.py lines 42-84). The engine is passed
in as a function from position and limit to its `InfoDict` result; a FEN
that fails to parse, or an `InfoDict` missing the "score" or "pv" key
(a `KeyError`, whose `str` is the quoted key name), lands in the
`except` branch and yields an error-only response. -/
def analyze_position (STOCKFISH_DEPTH : Int)
    (engineAnalyse : Chess.Position → Limit → InfoDict)
    (fen : String) (depth : Option Int) : AnalyzeResult :=
  match Chess.parseFen fen with
  | none => .failure ("invalid fen: " ++ fen)
  | some board =>
    let lim := applied_limit STOCKFISH_DEPTH depth
    let result := engineAnalyse board lim
    match result.score with
    | none => .failure "'score'"
    | some povScore =>
      match result.pv with
      | none => .failure "'pv'"
      | some pvMoves =>
        let score := povScore.white
        let best_move :=
          match pvMoves with
          | [] => none
          | mv :: _ => some mv.uci
        let pv := (pvMoves.take 5).map Chess.Move.uci
        .ok fen (if score.is_mate then "mate" else "centipawns")
          (if score.is_mate then score.mateValue else score.scoreValue)
          best_move pv lim.depth (if board.turn then "white" else "black")

/-- Response shapes of `validate_move` (src/server.py lines 109-134):
the legal shape carries SAN, resulting FEN and check flags; the illegal
shape only echoes the inputs; the exception shape (malformed FEN or UCI)
carries `is_legal: false` plus an error message. -/
inductive ValidateMoveResult
| legalRes (move_uci original_fen move_san resulting_fen : String) (check checkmate : Bool)
| illegalRes (move_uci original_fen : String)
| errorRes (error : String)
deriving DecidableEq, Repr

def ValidateMoveResult.is_legalField : ValidateMoveResult → Bool
| .legalRes _ _ _ _ _ _ => true
| .illegalRes _ _ => false
| .errorRes _ => false

def ValidateMoveResult.errorField : ValidateMoveResult → Option String
| .errorRes e => some e
| _ => none

def ValidateMoveResult.move_sanField : ValidateMoveResult → Option String
| .legalRes _ _ san _ _ _ => some san
| _ => none

def ValidateMoveResult.resulting_fenField : ValidateMoveResult → Option String
| .legalRes _ _ _ f _ _ => some f
| _ => none

def ValidateMoveResult.checkField : ValidateMoveResult → Option Bool
| .legalRes _ _ _ _ c _ => some c
| _ => none

def ValidateMoveResult.checkmateField : ValidateMoveResult → Option Bool
| .legalRes _ _ _ _ _ cm => some cm
| _ => none

/-- `validate_move` (src/server.py lines 109-134). -/
def validate_move (fen move_uci : String) : ValidateMoveResult :=
  match Chess.parseFen fen with
  | none => .errorRes ("invalid fen: " ++ fen)
  | some board =>
    match Chess.Move.from_uci move_uci with
    | none => .errorRes ("invalid uci: " ++ move_uci)
    | some move =>
      if move ∈ Chess.legalMoves board then
        let san := board.san move
        let after := board.push move
        .legalRes move_uci fen san after.fen after.isCheck after.isCheckmate
      else .illegalRes move_uci fen

/-- Response shapes of `get_legal_moves` (src/server.py lines 136-153). -/
inductive LegalMovesResult
| ok (fen : String) (legal_moves_uci legal_moves_san : List String)
    (count : Nat) (turn : String)
| failure (error : String)
deriving DecidableEq, Repr

def LegalMovesResult.uciField : LegalMovesResult → Option (List String)
| .ok _ u _ _ _ => some u
| .failure _ => none

def LegalMovesResult.sanField : LegalMovesResult → Option (List String)
| .ok _ _ s _ _ => some s
| .failure _ => none

def LegalMovesResult.countField : LegalMovesResult → Option Nat
| .ok _ _ _ c _ => some c
| .failure _ => none

/-- `get_legal_moves` (src/server.py lines 136-153): both notation lists
are comprehensions over the same `board.legal_moves` enumeration, and
`count` is the length of the UCI list. -/
def get_legal_moves (fen : String) : LegalMovesResult :=
  match Chess.parseFen fen with
  | none => .failure ("invalid fen: " ++ fen)
  | some board =>
    let legal_moves_uci := (Chess.legalMoves board).map Chess.Move.uci
    let legal_moves_san := (Chess.legalMoves board).map board.san
    .ok fen legal_moves_uci legal_moves_san legal_moves_uci.length
      (if board.turn then "white" else "black")

/-- The fields the Lichess game-fetch code reads from one parsed NDJSON
game object (src/server.py lines 222-231), each possibly absent. -/
structure GameData where
  id : Option String
  pgn : Option String
  whiteName : Option String
  blackName : Option String
  winner : Option String
  openingName : Option String
  speed : Option String
  rated : Option Bool
deriving DecidableEq, Repr

/-- The normalized game summary built per record (lines 222-232). An
absent id renders in the URL as the Python string "None". -/
structure GameSummary where
  id : Option String
  pgn : String
  white : Option String
  black : Option String
  winner : Option String
  opening : Option String
  time_control : Option String
  rated : Option Bool
  url : String
deriving DecidableEq, Repr

def mkGameSummary (g : GameData) : GameSummary :=
  { id := g.id
    pgn := g.pgn.getD ""
    white := g.whiteName
    black := g.blackName
    winner := g.winner
    opening := g.openingName
    time_control := g.speed
    rated := g.rated
    url := "https://lichess.org/" ++ (match g.id with
      | some s => s
      | none => "None") }

/-- One line of the NDJSON body, at the granularity the code observes it
after `response.text.strip().split(chr 10)`:
a blank line (skipped by `if line:`), a line on which `json.loads` raises
`JSONDecodeError` (skipped by the inner `except`), a line parsing to a
well-formed game object, or a line that parses as JSON but whose
normalization raises (e.g. `AttributeError` calling `.get` on a non-dict),
which the inner `except json.JSONDecodeError` does not catch. -/
inductive NdjsonLine
| blankLine
| malformed (raw : String)
| record (g : GameData)
| badRecord (error : String) (error_type : String)
deriving DecidableEq, Repr

/-- An HTTP response as observed by the code: status, raw text (used for
the 500-character error preview) and the body decomposed into NDJSON
lines. -/
structure HttpResponse where
  status_code : Nat
  text : String
  lines : List NdjsonLine
deriving DecidableEq, Repr

/-- The query the code sends to the Lichess API (src/server.py lines
170-189): URL plus the `params` dictionary. -/
structure GamesRequest where
  url : String
  max : Int
  pgnInJson : String
  clocks : String
  evals : String
  opening : String
  moves : String
  tags : String
  perfType : Option String
deriving DecidableEq, Repr

/-- Response shapes of `fetch_user_games` (src/server.py lines 155-265):
configuration error (lines 164-168), non-200 status error (lines 204-213),
empty success (lines 238-244), non-empty success (lines 246-250), and the
outer exception handler (lines 258-265). -/
inductive FetchResult
| configError (error : String) (status : String)
| httpError (error : String) (status_code : Nat) (response_preview : String)
    (possible_causes : List (Option String))
| okEmpty (username : String) (games_count : Nat) (message : String)
    (games : List GameSummary)
| okGames (username : String) (games_count : Nat) (games : List GameSummary)
| exceptionError (error : String) (error_type : String) (username : String)
deriving DecidableEq, Repr

def FetchResult.errorField : FetchResult → Option String
| .configError e _ => some e
| .httpError e _ _ _ => some e
| .exceptionError e _ _ => some e
| .okEmpty _ _ _ _ => none
| .okGames _ _ _ => none

def FetchResult.games_countField : FetchResult → Option Nat
| .okEmpty _ c _ _ => some c
| .okGames _ c _ => some c
| _ => none

def FetchResult.gamesField : FetchResult → Option (List GameSummary)
| .okEmpty _ _ _ gs => some gs
| .okGames _ _ gs => some gs
| _ => none

def FetchResult.statusField : FetchResult → Option String
| .configError _ s => some s
| _ => none

def FetchResult.status_codeField : FetchResult → Option Nat
| .httpError _ c _ _ => some c
| _ => none

def LICHESS_API_BASE : String := "https://lichess.org/api"

/-- Truthiness of the `LICHESS_TOKEN` environment value: `not LICHESS_TOKEN`
is True in Python when the variable is unset or the empty string. -/
def tokenTruthy : Option String → Bool
| none => false
| some s => !s.isEmpty

/-- The request `fetch_user_games` issues (src/server.py lines 174-189):
`max` is `min(max_games, 50)`, the other query parameters are fixed
strings, and `perfType` is added only when `time_control` is set. -/
def games_request (username : String) (max_games : Int) (time_control : Option String) :
    GamesRequest :=
  { url := LICHESS_API_BASE ++ "/games/user/" ++ username
    max := min max_games 50
    pgnInJson := "true"
    clocks := "false"
    evals := "false"
    opening := "true"
    moves := "false"
    tags := "true"
    perfType := time_control }

/-- The NDJSON parsing loop (src/server.py lines 216-236): blank and
JSON-undecodable lines are skipped, well-formed records are normalized and
collected, and a line whose processing raises anything other than
`JSONDecodeError` aborts the loop by propagating to the outer handler. -/
def parseGamesLoop : List NdjsonLine → List GameSummary → Except (String × String) (List GameSummary)
| [], acc => .ok acc.reverse
| l :: rest, acc =>
  match l with
  | .blankLine => parseGamesLoop rest acc
  | .malformed _ => parseGamesLoop rest acc
  | .record g => parseGamesLoop rest (mkGameSummary g :: acc)
  | .badRecord e et => .error (e, et)

def strTake (s : String) (n : Nat) : String := String.mk (s.data.take n)

/-- The `possible_causes` hints of the non-200 branch (lines 208-212);
Python leaves `None` entries in the list. -/
def possibleCauses (status : Nat) : List (Option String) :=
  [if status = 404 then some "Username doesn't exist" else none,
   if status = 401 then some "Authentication failed - check LICHESS_TOKEN" else none,
   if status = 403 then some "Token permissions insufficient" else none]

/-- `fetch_user_games` (src/server.py lines 155-265). The Lichess service
is passed in as a function from the request to the HTTP response. -/
def fetch_user_games (LICHESS_TOKEN : Option String)
    (http : GamesRequest → HttpResponse)
    (username : String) (max_games : Int) (time_control : Option String) : FetchResult :=
  if !tokenTruthy LICHESS_TOKEN then
    .configError
      "LICHESS_TOKEN environment variable not set. Please add it in Cloud Run settings."
      "configuration_error"
  else
    let response := http (games_request username max_games time_control)
    if response.status_code ≠ 200 then
      .httpError ("Lichess API returned status " ++ toString response.status_code)
        response.status_code (strTake response.text 500)
        (possibleCauses response.status_code)
    else
      match parseGamesLoop response.lines [] with
      | .error e => .exceptionError e.1 e.2 username
      | .ok games =>
        if games.isEmpty then
          .okEmpty username 0
            "No games found. User might have no public games or username doesn't exist." []
        else .okGames username games.length games

end Server

namespace EngineRace

/-- Interleaving model of `get_engine` (src/server.py lines 27-37) under
two concurrent first calls. The `engine is None` check (line 30) and the
assignment of the launched handle (line 32) are separated by the `await`
on `popen_uci`, so the scheduler may run the other task in between. A
task is `ready` before the check, `launching` after it has seen `None`
and suspended on `popen_uci`, and `done h` once it returns handle `h`.
`launches` counts Stockfish processes started; each launch yields a fresh
handle numbered by launch order, and completing a launch overwrites the
global `engine`. -/
inductive TaskState
| ready
| launching
| done (handle : Nat)
deriving DecidableEq, Repr

structure RaceState where
  engine : Option Nat
  launches : Nat
  taskA : TaskState
  taskB : TaskState
deriving DecidableEq, Repr

def stepTask (engine : Option Nat) (launches : Nat) :
    TaskState → Option Nat × Nat × TaskState
| .ready =>
  match engine with
  | some h => (engine, launches, .done h)
  | none => (engine, launches, .launching)
| .launching => (some (launches + 1), launches + 1, .done (launches + 1))
| .done h => (engine, launches, .done h)

/-- Run one scheduler step: `true` advances task A, `false` task B. -/
def step (s : RaceState) (pickA : Bool) : RaceState :=
  if pickA then
    let r := stepTask s.engine s.launches s.taskA
    { engine := r.1, launches := r.2.1, taskA := r.2.2, taskB := s.taskB }
  else
    let r := stepTask s.engine s.launches s.taskB
    { engine := r.1, launches := r.2.1, taskA := s.taskA, taskB := r.2.2 }

def run (sched : List Bool) : RaceState :=
  sched.foldl step ⟨none, 0, .ready, .ready⟩

def TaskState.handleOf : TaskState → Option Nat
| .done h => some h
| _ => none

end EngineRace

namespace Server

/-- The normalized summary a body line contributes, if any: only
well-formed record lines contribute. -/
def lineSummary : NdjsonLine → Option GameSummary
| .record g => some (mkGameSummary g)
| _ => none

def isRecordLine (l : NdjsonLine) : Bool := (lineSummary l).isSome

end Server

/-- Default position used to instantiate hypotheses of the claim theorems
at a concrete input. -/
def startPos : Chess.Position :=
  (Chess.parseFen Chess.startFen).getD ⟨[], true, false, false, false, false, none, 0, 1⟩

namespace Chess

theorem shift_eq_some {sq t : Nat} {df dr : Int} (h : shift sq df dr = some t) :
    0 ≤ (sq % 8 : Int) + df ∧ (sq % 8 : Int) + df < 8 ∧
      0 ≤ (sq / 8 : Int) + dr ∧ (sq / 8 : Int) + dr < 8 ∧
      t = (((sq / 8 : Int) + dr) * 8 + ((sq % 8 : Int) + df)).toNat := by
  simp only [shift] at h
  split at h
  · rename_i hc
    exact ⟨hc.1, hc.2.1, hc.2.2.1, hc.2.2.2, (Option.some.inj h).symm⟩
  · exact absurd h (by simp)

theorem shift_lt {sq t : Nat} {df dr : Int} (h : shift sq df dr = some t) : t < 64 := by
  obtain ⟨h1, h2, h3, h4, h5⟩ := shift_eq_some h
  omega

theorem shift_ne {sq t : Nat} {df dr : Int}
    (hdf : -8 < df ∧ df < 8) (hne : df ≠ 0 ∨ dr ≠ 0)
    (h : shift sq df dr = some t) : t ≠ sq := by
  obtain ⟨h1, h2, h3, h4, h5⟩ := shift_eq_some h
  rcases hne with hd | hd <;> omega

theorem ray_mono (bd : BoardArr) (c : Bool) (df dr k : Int) (hk : 0 < k)
    (hstep : ∀ s u, shift s df dr = some u → dirMeasure df dr u = dirMeasure df dr s + k) :
    ∀ fuel cur t, t ∈ rayTargets bd c df dr fuel cur →
      dirMeasure df dr cur < dirMeasure df dr t ∧ t < 64 := by
  intro fuel
  induction fuel with
  | zero => intro cur t ht; simp [rayTargets] at ht
  | succ n ih =>
    intro cur t ht
    simp only [rayTargets] at ht
    split at ht
    · simp at ht
    · rename_i u hs
      have hu64 := shift_lt hs
      have hμ := hstep cur u hs
      split at ht
      · rcases List.mem_cons.mp ht with rfl | hmem
        · exact ⟨by omega, hu64⟩
        · have hrec := ih u t hmem
          exact ⟨by omega, hrec.2⟩
      · split at ht
        · simp at ht
        · simp at ht
          subst ht
          exact ⟨by omega, hu64⟩

theorem rayTargets_ne {bd : BoardArr} {c : Bool} {df dr : Int} {fuel sq t : Nat} (k : Int)
    (hk : 0 < k)
    (hstep : ∀ s u, shift s df dr = some u → dirMeasure df dr u = dirMeasure df dr s + k)
    (ht : t ∈ rayTargets bd c df dr fuel sq) : t < 64 ∧ t ≠ sq := by
  obtain ⟨hμ, h64⟩ := ray_mono bd c df dr k hk hstep fuel sq t ht
  refine ⟨h64, fun he => ?_⟩
  rw [he] at hμ
  omega

theorem ray_dir_ne {bd : BoardArr} {c : Bool} {df dr : Int} {fuel sq t : Nat}
    (hd : (df, dr) ∈ bishopDirs ++ rookDirs)
    (ht : t ∈ rayTargets bd c df dr fuel sq) : t < 64 ∧ t ≠ sq := by
  simp only [bishopDirs, rookDirs, List.mem_append, List.mem_cons, List.not_mem_nil,
    or_false, Prod.mk.injEq] at hd
  rcases hd with (⟨rfl, rfl⟩ | ⟨rfl, rfl⟩ | ⟨rfl, rfl⟩ | ⟨rfl, rfl⟩) |
    (⟨rfl, rfl⟩ | ⟨rfl, rfl⟩ | ⟨rfl, rfl⟩ | ⟨rfl, rfl⟩) <;>
  first
  | exact rayTargets_ne 2 (by norm_num)
      (fun s u h => by
        obtain ⟨h1, h2, h3, h4, h5⟩ := shift_eq_some h
        simp only [dirMeasure]
        omega) ht
  | exact rayTargets_ne 1 (by norm_num)
      (fun s u h => by
        obtain ⟨h1, h2, h3, h4, h5⟩ := shift_eq_some h
        simp only [dirMeasure]
        omega) ht

theorem stepTargets_mem {bd : BoardArr} {c : Bool} {sq t : Nat} {deltas : List (Int × Int)}
    (ht : t ∈ stepTargets bd c sq deltas) : ∃ d ∈ deltas, shift sq d.1 d.2 = some t := by
  simp only [stepTargets, List.mem_filterMap] at ht
  obtain ⟨d, hd, hf⟩ := ht
  refine ⟨d, hd, ?_⟩
  split at hf
  · exact absurd hf (by simp)
  · rename_i u hs
    split at hf
    · rw [hs, hf]
    · split at hf
      · exact absurd hf (by simp)
      · rw [hs, hf]

theorem pawnMoves_wf {pos : Position} {sq : Nat} {m : Move} (hm : m ∈ pawnMoves pos sq) :
    m.fromSq = sq ∧ m.toSq < 64 ∧ m.toSq ≠ sq := by
  have key : m.fromSq = sq ∧
      ∃ df dr : Int, (-8 < df ∧ df < 8) ∧ (df ≠ 0 ∨ dr ≠ 0) ∧ shift sq df dr = some m.toSq := by
    simp only [pawnMoves] at hm
    rcases List.mem_append.mp hm with h1 | h2
    · obtain ⟨l, hl, hml⟩ := List.mem_flatten.mp h1
      obtain ⟨t, ht, rfl⟩ := List.mem_map.mp hl
      have hmt : m.fromSq = sq ∧ m.toSq = t := by
        repeat' split at hml
        all_goals
          first
          | (obtain ⟨k, hk, rfl⟩ := List.mem_map.mp hml; exact ⟨rfl, rfl⟩)
          | (rcases List.mem_singleton.mp hml with rfl; exact ⟨rfl, rfl⟩)
      rcases List.mem_append.mp ht with hs | hc
      · refine ⟨hmt.1, 0, if pos.turn then 1 else -1, by norm_num, ?_, ?_⟩
        · right; split <;> norm_num
        · rw [hmt.2]
          repeat' split at hs
          all_goals
            first
            | (rcases List.mem_singleton.mp hs with rfl; assumption)
            | simp at hs
      · obtain ⟨df, hdf, hf⟩ := List.mem_filterMap.mp hc
        have hdf' : df = -1 ∨ df = 1 := by
          rcases List.mem_cons.mp hdf with rfl | hdf1
          · exact Or.inl rfl
          · exact Or.inr (List.mem_singleton.mp hdf1)
        refine ⟨hmt.1, df, if pos.turn then 1 else -1, ?_, ?_, ?_⟩
        · rcases hdf' with rfl | rfl <;> norm_num
        · left; rcases hdf' with rfl | rfl <;> norm_num
        · rw [hmt.2]
          repeat' split at hf
          all_goals
            first
            | (injection hf with h; subst h; assumption)
            | simp at hf
    · have hfrom : m.fromSq = sq ∧ shift sq 0 (2 * if pos.turn then 1 else -1) = some m.toSq := by
        repeat' split at h2
        all_goals
          first
          | (rcases List.mem_singleton.mp h2 with rfl; refine ⟨rfl, ?_⟩; assumption)
          | simp at h2
      exact ⟨hfrom.1, 0, 2 * if pos.turn then 1 else -1, by norm_num,
        by right; split <;> norm_num, hfrom.2⟩
  obtain ⟨h1, df, dr, hb, hne, hs⟩ := key
  exact ⟨h1, shift_lt hs, shift_ne hb hne hs⟩

theorem pseudoMovesFrom_wf {pos : Position} {sq : Nat} {m : Move} (hsq : sq < 64)
    (hm : m ∈ pseudoMovesFrom pos sq) :
    m.fromSq < 64 ∧ m.toSq < 64 ∧ m.fromSq ≠ m.toSq := by
  have hKd : ∀ d ∈ knightDeltas, (-8 < d.1 ∧ d.1 < 8) ∧ (d.1 ≠ 0 ∨ d.2 ≠ 0) := by decide
  have hGd : ∀ d ∈ kingDeltas, (-8 < d.1 ∧ d.1 < 8) ∧ (d.1 ≠ 0 ∨ d.2 ≠ 0) := by decide
  simp only [pseudoMovesFrom] at hm
  split at hm
  · simp at hm
  · rename_i p hp
    split at hm
    · split at hm
      · obtain ⟨h1, h2, h3⟩ := pawnMoves_wf hm
        exact ⟨h1 ▸ hsq, h2, fun he => h3 (he.symm.trans h1)⟩
      · obtain ⟨t, ht, rfl⟩ := List.mem_map.mp hm
        obtain ⟨d, hd, hs⟩ := stepTargets_mem ht
        exact ⟨hsq, shift_lt hs, fun he => shift_ne (hKd d hd).1 (hKd d hd).2 hs he.symm⟩
      · obtain ⟨t, ht, rfl⟩ := List.mem_map.mp hm
        obtain ⟨d, hd, hs⟩ := stepTargets_mem ht
        exact ⟨hsq, shift_lt hs, fun he => shift_ne (hGd d hd).1 (hGd d hd).2 hs he.symm⟩
      · obtain ⟨t, ht, rfl⟩ := List.mem_map.mp hm
        obtain ⟨l, hl, htl⟩ := List.mem_flatten.mp ht
        obtain ⟨d, hd, rfl⟩ := List.mem_map.mp hl
        have := ray_dir_ne (List.mem_append_left rookDirs hd) htl
        exact ⟨hsq, this.1, fun he => this.2 he.symm⟩
      · obtain ⟨t, ht, rfl⟩ := List.mem_map.mp hm
        obtain ⟨l, hl, htl⟩ := List.mem_flatten.mp ht
        obtain ⟨d, hd, rfl⟩ := List.mem_map.mp hl
        have := ray_dir_ne (List.mem_append_right bishopDirs hd) htl
        exact ⟨hsq, this.1, fun he => this.2 he.symm⟩
      · obtain ⟨t, ht, rfl⟩ := List.mem_map.mp hm
        obtain ⟨l, hl, htl⟩ := List.mem_flatten.mp ht
        obtain ⟨d, hd, rfl⟩ := List.mem_map.mp hl
        have := ray_dir_ne hd htl
        exact ⟨hsq, this.1, fun he => this.2 he.symm⟩
    · simp at hm

theorem castlingMoves_wf {pos : Position} {m : Move} (hm : m ∈ castlingMoves pos) :
    m.fromSq < 64 ∧ m.toSq < 64 ∧ m.fromSq ≠ m.toSq := by
  simp only [castlingMoves] at hm
  rcases List.mem_append.mp hm with h | h <;>
  · repeat' split at h
    all_goals
      first
      | (rcases List.mem_singleton.mp h with rfl
         refine ⟨?_, ?_, ?_⟩ <;> norm_num)
      | simp at h

theorem legalMoves_wf {pos : Position} {m : Move} (hm : m ∈ legalMoves pos) :
    m.fromSq < 64 ∧ m.toSq < 64 ∧ m.fromSq ≠ m.toSq := by
  rcases List.mem_append.mp hm with h | h
  · have h1 := (List.mem_filter.mp h).1
    simp only [pseudoLegalMoves] at h1
    obtain ⟨l, hl, hml⟩ := List.mem_flatten.mp h1
    obtain ⟨sq, hsq, rfl⟩ := List.mem_map.mp hl
    exact pseudoMovesFrom_wf (List.mem_range.mp hsq) hml
  · exact castlingMoves_wf h

theorem parseSquare_roundtrip : ∀ sq : Nat, sq < 64 →
    parseSquare (fileChar sq) (rankChar sq) = some sq := by decide

theorem fileChar_ne_zero : ∀ sq : Nat, sq < 64 → fileChar sq ≠ '0' := by decide

theorem symbolPiece_pieceSymbol : ∀ k : PieceKind, symbolPiece (pieceSymbol k) = some k := by
  intro k; cases k <;> rfl

theorem from_uci_uci (m : Move) (h1 : m.fromSq < 64) (h2 : m.toSq < 64)
    (h3 : m.fromSq ≠ m.toSq) : Move.from_uci m.uci = some m := by
  obtain ⟨f, t, pr⟩ := m
  simp only [Move.fromSq, Move.toSq] at h1 h2 h3
  cases pr with
  | none =>
    have hne : ¬(f = 0 ∧ t = 0 ∧ (none : Option PieceKind) = none) :=
      fun ⟨ha, hb, _⟩ => h3 (by rw [ha, hb])
    have huci : Move.uci ⟨f, t, none⟩ =
        String.mk [fileChar f, rankChar f, fileChar t, rankChar t] := by
      rw [Move.uci, if_neg hne]
      rfl
    have hzero : String.mk [fileChar f, rankChar f, fileChar t, rankChar t] ≠ "0000" := by
      intro habs
      have hdata := congrArg String.data habs
      have h0 : ("0000" : String).data = ['0', '0', '0', '0'] := rfl
      rw [h0] at hdata
      exact fileChar_ne_zero f h1 (List.head_eq_of_cons_eq hdata)
    rw [huci, Move.from_uci, if_neg hzero]
    show (do
      let a ← parseSquare (fileChar f) (rankChar f)
      let b ← parseSquare (fileChar t) (rankChar t)
      if a = b then none else some (Move.mk a b none)) = some (Move.mk f t none)
    rw [parseSquare_roundtrip f h1, parseSquare_roundtrip t h2]
    simp [h3]
  | some k =>
    have hne : ¬(f = 0 ∧ t = 0 ∧ (some k : Option PieceKind) = none) :=
      fun ⟨_, _, hc⟩ => Option.some_ne_none k hc
    have huci : Move.uci ⟨f, t, some k⟩ =
        String.mk [fileChar f, rankChar f, fileChar t, rankChar t, pieceSymbol k] := by
      rw [Move.uci, if_neg hne]
      rfl
    have hzero : String.mk [fileChar f, rankChar f, fileChar t, rankChar t, pieceSymbol k] ≠
        "0000" := by
      intro habs
      have hdata := congrArg List.length (congrArg String.data habs)
      simp at hdata
    rw [huci, Move.from_uci, if_neg hzero]
    show (do
      let a ← parseSquare (fileChar f) (rankChar f)
      let b ← parseSquare (fileChar t) (rankChar t)
      let p ← symbolPiece (pieceSymbol k)
      if a = b then none else some (Move.mk a b (some p))) = some (Move.mk f t (some k))
    rw [parseSquare_roundtrip f h1, parseSquare_roundtrip t h2, symbolPiece_pieceSymbol k]
    simp [h3]

end Chess
/-- C1: analyze_position applies a search depth of min(requested, 25)
(min(configured default, 25) when the request omits it), and the `depth`
field of every success response equals that clamped value; in particular a
request with depth 999 reports a depth of at most 25. -/
theorem C1_depth_clamped (STOCKFISH_DEPTH : Int)
    (engineAnalyse : Chess.Position → Server.Limit → Server.InfoDict)
    (fen : String) (depth : Option Int) :
    (Server.applied_limit STOCKFISH_DEPTH depth).depth = min (depth.getD STOCKFISH_DEPTH) 25 ∧
    (∀ r, (Server.analyze_position STOCKFISH_DEPTH engineAnalyse fen depth).depthField = some r →
      r = min (depth.getD STOCKFISH_DEPTH) 25 ∧ r ≤ 25) := by
  refine ⟨rfl, ?_⟩
  intro r hr
  simp only [Server.analyze_position] at hr
  repeat' split at hr
  all_goals
    simp only [Server.AnalyzeResult.depthField, Server.applied_limit,
      Option.some.injEq, reduceCtorEq] at hr
  all_goals exact ⟨by omega, by omega⟩

/-- Witness for C1 at a concrete input: depth 999 on the starting position
is reported as 25. -/
theorem C1_depth_clamped_witness :
    (Server.analyze_position 18 (fun _ _ => ⟨some ⟨Server.Score.cp 0⟩, some []⟩)
      Chess.startFen (some 999)).depthField = some 25 ∧
    ((25 : Int) = min ((some (999 : Int)).getD 18) 25 ∧ (25 : Int) ≤ 25) := by
  have h : (Server.analyze_position 18 (fun _ _ => ⟨some ⟨Server.Score.cp 0⟩, some []⟩)
      Chess.startFen (some 999)).depthField = some 25 := by decide
  exact ⟨h, (C1_depth_clamped 18 (fun _ _ => ⟨some ⟨Server.Score.cp 0⟩, some []⟩)
    Chess.startFen (some 999)).2 25 h⟩

/-- C6: with no (or an empty) credential configured, fetch_user_games
returns the configuration-error response whatever the network would have
answered (so no request is needed), and that response carries no HTTP
status code, distinguishing it from a remote rejection. -/
theorem C6_config_error (LICHESS_TOKEN : Option String)
    (http : Server.GamesRequest → Server.HttpResponse)
    (username : String) (max_games : Int) (time_control : Option String)
    (htok : Server.tokenTruthy LICHESS_TOKEN = false) :
    Server.fetch_user_games LICHESS_TOKEN http username max_games time_control =
      Server.FetchResult.configError
        "LICHESS_TOKEN environment variable not set. Please add it in Cloud Run settings."
        "configuration_error" ∧
    (Server.fetch_user_games LICHESS_TOKEN http username max_games
      time_control).status_codeField = none := by
  simp [Server.fetch_user_games, htok, Server.FetchResult.status_codeField]

/-- Witness for C6: an unset token with an arbitrary network function. -/
theorem C6_config_error_witness :
    Server.tokenTruthy none = false ∧
    Server.fetch_user_games none (fun _ => ⟨200, "", []⟩) "alice" 10 none =
      Server.FetchResult.configError
        "LICHESS_TOKEN environment variable not set. Please add it in Cloud Run settings."
        "configuration_error" :=
  ⟨rfl, (C6_config_error none (fun _ => ⟨200, "", []⟩) "alice" 10 none rfl).1⟩

/-- C9: in the interleaving model of get_engine, the schedule that runs
both tasks past the `engine is None` check before either `popen_uci`
completes launches the engine process twice, and the two callers end up
with different handles — initialization is not idempotent under concurrent
first use. -/
theorem C9_engine_double_launch :
    (EngineRace.run [true, false, true, false]).launches = 2 ∧
    (EngineRace.run [true, false, true, false]).taskA.handleOf = some 1 ∧
    (EngineRace.run [true, false, true, false]).taskB.handleOf = some 2 ∧
    (EngineRace.run [true, false, true, false]).taskA.handleOf ≠
      (EngineRace.run [true, false, true, false]).taskB.handleOf := by
  decide

/-- C10: the `max` parameter sent to Lichess is min(max_games, 50):
clamped only from above, so any value at most 50 — including zero and
negative values — is forwarded unchanged. -/
theorem C10_max_games_clamp (username : String) (max_games : Int)
    (time_control : Option String) :
    (Server.games_request username max_games time_control).max = min max_games 50 ∧
    (max_games ≤ 50 →
      (Server.games_request username max_games time_control).max = max_games) := by
  refine ⟨rfl, fun h => ?_⟩
  simp only [Server.games_request]
  omega

/-- Witness for C10: a negative max_games is forwarded unchanged. -/
theorem C10_max_games_clamp_witness :
    ((-5 : Int) ≤ 50) ∧ (Server.games_request "alice" (-5) none).max = -5 :=
  ⟨by norm_num, (C10_max_games_clamp "alice" (-5) none).2 (by norm_num)⟩

/-- C2: validate_move answers `is_legal: false` with an error message
whenever the FEN or the move string fails to parse, and `is_legal: false`
with no error message when both parse but the move is not legal — the two
failure shapes are distinguished by the presence of the error field. -/
theorem C2_parse_error_vs_illegal (fen move_uci : String) :
    ((Chess.parseFen fen = none ∨ Chess.Move.from_uci move_uci = none) →
      (Server.validate_move fen move_uci).is_legalField = false ∧
      (Server.validate_move fen move_uci).errorField.isSome = true) ∧
    (∀ b m, Chess.parseFen fen = some b → Chess.Move.from_uci move_uci = some m →
      m ∉ Chess.legalMoves b →
      (Server.validate_move fen move_uci).is_legalField = false ∧
      (Server.validate_move fen move_uci).errorField = none) := by
  constructor
  · rintro (h | h)
    · simp [Server.validate_move, h, Server.ValidateMoveResult.is_legalField,
        Server.ValidateMoveResult.errorField]
    · cases hp : Chess.parseFen fen <;>
        simp [Server.validate_move, hp, h, Server.ValidateMoveResult.is_legalField,
          Server.ValidateMoveResult.errorField]
  · intro b m hb hm hnot
    simp [Server.validate_move, hb, hm, hnot, Server.ValidateMoveResult.is_legalField,
      Server.ValidateMoveResult.errorField]

/-- Witness for C2: a malformed FEN gives the error shape, and the
syntactically valid but illegal move e2e5 from the start position gives
the error-free shape. -/
theorem C2_parse_error_vs_illegal_witness :
    ((Server.validate_move "bad" "e2e4").is_legalField = false ∧
      (Server.validate_move "bad" "e2e4").errorField.isSome = true) ∧
    ((Server.validate_move Chess.startFen "e2e5").is_legalField = false ∧
      (Server.validate_move Chess.startFen "e2e5").errorField = none) := by
  refine ⟨(C2_parse_error_vs_illegal "bad" "e2e4").1 (Or.inl (by decide)), ?_⟩
  exact (C2_parse_error_vs_illegal Chess.startFen "e2e5").2 startPos ⟨12, 36, none⟩
    (by decide) (by decide) (by decide)

/-- C3: on a legal move, validate_move reports `is_legal: true` with the
SAN, the resulting FEN, and the check/checkmate flags of the resulting
position; on an illegal move none of these fields is present. On the
standard start position with "e2e4" it yields is_legal true, SAN "e4" and
a resulting FEN beginning "rnbqkbnr/pppppppp/8/8/4P3/8/PPPP1PPP/RNBQKBNR
b KQkq". -/
theorem C3_legal_move_fields (fen move_uci : String) (b : Chess.Position) (m : Chess.Move)
    (hb : Chess.parseFen fen = some b) (hm : Chess.Move.from_uci move_uci = some m) :
    (m ∈ Chess.legalMoves b →
      (Server.validate_move fen move_uci).is_legalField = true ∧
      (Server.validate_move fen move_uci).move_sanField = some (b.san m) ∧
      (Server.validate_move fen move_uci).resulting_fenField = some ((b.push m).fen) ∧
      (Server.validate_move fen move_uci).checkField = some ((b.push m).isCheck) ∧
      (Server.validate_move fen move_uci).checkmateField = some ((b.push m).isCheckmate)) ∧
    (m ∉ Chess.legalMoves b →
      (Server.validate_move fen move_uci).is_legalField = false ∧
      (Server.validate_move fen move_uci).move_sanField = none ∧
      (Server.validate_move fen move_uci).resulting_fenField = none ∧
      (Server.validate_move fen move_uci).checkField = none ∧
      (Server.validate_move fen move_uci).checkmateField = none) ∧
    ((Server.validate_move Chess.startFen "e2e4").is_legalField = true ∧
      (Server.validate_move Chess.startFen "e2e4").move_sanField = some "e4" ∧
      ∃ s, (Server.validate_move Chess.startFen "e2e4").resulting_fenField = some s ∧
        "rnbqkbnr/pppppppp/8/8/4P3/8/PPPP1PPP/RNBQKBNR b KQkq".data.isPrefixOf s.data = true) := by
  refine ⟨?_, ?_, ?_, ?_, ?_⟩
  · intro hmem
    simp [Server.validate_move, hb, hm, hmem, Server.ValidateMoveResult.is_legalField,
      Server.ValidateMoveResult.move_sanField, Server.ValidateMoveResult.resulting_fenField,
      Server.ValidateMoveResult.checkField, Server.ValidateMoveResult.checkmateField]
  · intro hnot
    simp [Server.validate_move, hb, hm, hnot, Server.ValidateMoveResult.is_legalField,
      Server.ValidateMoveResult.move_sanField, Server.ValidateMoveResult.resulting_fenField,
      Server.ValidateMoveResult.checkField, Server.ValidateMoveResult.checkmateField]
  · decide
  · decide
  · exact ⟨"rnbqkbnr/pppppppp/8/8/4P3/8/PPPP1PPP/RNBQKBNR b KQkq - 0 1", by decide, by decide⟩

/-- Witness for C3: the legal move e2e4 and the illegal move e2e5 from
the start position. -/
theorem C3_legal_move_fields_witness :
    ((Server.validate_move Chess.startFen "e2e4").is_legalField = true ∧
      (Server.validate_move Chess.startFen "e2e4").move_sanField =
        some (startPos.san ⟨12, 28, none⟩)) ∧
    ((Server.validate_move Chess.startFen "e2e5").move_sanField = none) := by
  have h := C3_legal_move_fields Chess.startFen "e2e4" startPos ⟨12, 28, none⟩
    (by decide) (by decide)
  have h5 := C3_legal_move_fields Chess.startFen "e2e5" startPos ⟨12, 36, none⟩
    (by decide) (by decide)
  have hmem : (⟨12, 28, none⟩ : Chess.Move) ∈ Chess.legalMoves startPos := by decide
  have hnot : (⟨12, 36, none⟩ : Chess.Move) ∉ Chess.legalMoves startPos := by decide
  exact ⟨⟨(h.1 hmem).1, (h.1 hmem).2.1⟩, (h5.2.1 hnot).2.1⟩

/-- C4: for every parseable position, the UCI and SAN lists of
get_legal_moves are images of one common legal-move enumeration (so they
have equal length and the Nth entries of both render the same move), and
the `count` field equals that common length. -/
theorem C4_aligned_lists (fen : String) (b : Chess.Position)
    (hb : Chess.parseFen fen = some b) :
    ∃ ms : List Chess.Move, ms = Chess.legalMoves b ∧
      (Server.get_legal_moves fen).uciField = some (ms.map Chess.Move.uci) ∧
      (Server.get_legal_moves fen).sanField = some (ms.map b.san) ∧
      (Server.get_legal_moves fen).countField = some ms.length ∧
      (ms.map Chess.Move.uci).length = (ms.map b.san).length := by
  refine ⟨Chess.legalMoves b, rfl, ?_, ?_, ?_, ?_⟩ <;>
    simp [Server.get_legal_moves, hb, Server.LegalMovesResult.uciField,
      Server.LegalMovesResult.sanField, Server.LegalMovesResult.countField]

/-- Witness for C4 at the starting position. -/
theorem C4_aligned_lists_witness :
    Chess.parseFen Chess.startFen = some startPos ∧
    ∃ ms : List Chess.Move, ms = Chess.legalMoves startPos ∧
      (Server.get_legal_moves Chess.startFen).uciField = some (ms.map Chess.Move.uci) ∧
      (Server.get_legal_moves Chess.startFen).sanField = some (ms.map startPos.san) ∧
      (Server.get_legal_moves Chess.startFen).countField = some ms.length ∧
      (ms.map Chess.Move.uci).length = (ms.map startPos.san).length :=
  ⟨by decide, C4_aligned_lists Chess.startFen startPos (by decide)⟩

/-- C5: every move string in the UCI list returned by get_legal_moves is
reported legal by validate_move on the same position. -/
theorem C5_enumeration_validates (fen : String) (b : Chess.Position) (u : String)
    (L : List String) (hb : Chess.parseFen fen = some b)
    (hL : (Server.get_legal_moves fen).uciField = some L) (hu : u ∈ L) :
    (Server.validate_move fen u).is_legalField = true := by
  have hL' : L = (Chess.legalMoves b).map Chess.Move.uci := by
    simp [Server.get_legal_moves, hb, Server.LegalMovesResult.uciField] at hL
    exact hL.symm
  subst hL'
  obtain ⟨m, hm, rfl⟩ := List.mem_map.mp hu
  obtain ⟨w1, w2, w3⟩ := Chess.legalMoves_wf hm
  have hparse := Chess.from_uci_uci m w1 w2 w3
  simp [Server.validate_move, hb, hparse, hm, Server.ValidateMoveResult.is_legalField]

/-- Witness for C5: "e2e4" drawn from the start position's UCI list. -/
theorem C5_enumeration_validates_witness :
    (Server.validate_move Chess.startFen "e2e4").is_legalField = true :=
  C5_enumeration_validates Chess.startFen startPos "e2e4"
    ((Chess.legalMoves startPos).map Chess.Move.uci)
    (by decide) (by decide) (by decide)

theorem length_filterMap_lineSummary (l : List Server.NdjsonLine) :
    (l.filterMap Server.lineSummary).length = l.countP Server.isRecordLine := by
  induction l with
  | nil => rfl
  | cons h t ih =>
    cases h <;> simp [Server.lineSummary, Server.isRecordLine, List.countP_cons, ih]

theorem parseGamesLoop_no_bad :
    ∀ (l : List Server.NdjsonLine) (acc : List Server.GameSummary),
      (∀ e et, Server.NdjsonLine.badRecord e et ∉ l) →
      Server.parseGamesLoop l acc = .ok (acc.reverse ++ l.filterMap Server.lineSummary) := by
  intro l
  induction l with
  | nil => intro acc _; simp [Server.parseGamesLoop]
  | cons h t ih =>
    intro acc hgood
    have hgood' : ∀ e et, Server.NdjsonLine.badRecord e et ∉ t :=
      fun e et hm => hgood e et (List.mem_cons_of_mem _ hm)
    cases h with
    | blankLine => simp [Server.parseGamesLoop, Server.lineSummary, ih acc hgood']
    | malformed raw => simp [Server.parseGamesLoop, Server.lineSummary, ih acc hgood']
    | record g =>
      rw [Server.parseGamesLoop, ih (Server.mkGameSummary g :: acc) hgood']
      simp [Server.lineSummary, List.reverse_cons, List.append_assoc]
    | badRecord e et => exact absurd (List.mem_cons_self _ _) (hgood e et)

/-- C7 counterexample: an HTTP-200 body whose first line is a well-formed
record and whose second line parses as JSON but is not a game object (for
example the line "5": `json.loads` succeeds, `.get` then raises
`AttributeError`, which `except json.JSONDecodeError` does not catch).
The whole call collapses to the outer exception handler's error response
instead of returning the one record that did parse. -/
theorem C7_nonobject_line_counterexample :
    Server.fetch_user_games (some "tok")
      (fun _ => ⟨200, "",
        [Server.NdjsonLine.record ⟨some "g1", some "1. e4", some "w", some "b",
          none, none, some "blitz", some true⟩,
         Server.NdjsonLine.badRecord "'int' object has no attribute 'get'" "AttributeError"]⟩)
      "alice" 10 none =
      Server.FetchResult.exceptionError "'int' object has no attribute 'get'"
        "AttributeError" "alice" ∧
    (Server.fetch_user_games (some "tok")
      (fun _ => ⟨200, "",
        [Server.NdjsonLine.record ⟨some "g1", some "1. e4", some "w", some "b",
          none, none, some "blitz", some true⟩,
         Server.NdjsonLine.badRecord "'int' object has no attribute 'get'" "AttributeError"]⟩)
      "alice" 10 none).games_countField = none ∧
    (Server.fetch_user_games (some "tok")
      (fun _ => ⟨200, "",
        [Server.NdjsonLine.record ⟨some "g1", some "1. e4", some "w", some "b",
          none, none, some "blitz", some true⟩,
         Server.NdjsonLine.badRecord "'int' object has no attribute 'get'" "AttributeError"]⟩)
      "alice" 10 none).errorField.isSome = true := by
  refine ⟨?_, ?_, ?_⟩ <;> decide

/-- C7 (amended): on an HTTP-200 body none of whose lines raises a
non-JSONDecodeError exception, fetch_user_games skips blank and
JSON-undecodable lines, returns exactly the records that parsed with
their count, and reports zero parsed records as a success payload with
games_count 0 and an empty games list rather than an error. -/
theorem C7_skip_malformed_amended (LICHESS_TOKEN : Option String)
    (http : Server.GamesRequest → Server.HttpResponse)
    (username : String) (max_games : Int) (time_control : Option String)
    (resp : Server.HttpResponse)
    (htok : Server.tokenTruthy LICHESS_TOKEN = true)
    (hresp : http (Server.games_request username max_games time_control) = resp)
    (hstatus : resp.status_code = 200)
    (hgood : ∀ e et, Server.NdjsonLine.badRecord e et ∉ resp.lines) :
    (Server.fetch_user_games LICHESS_TOKEN http username max_games
        time_control).errorField = none ∧
    (Server.fetch_user_games LICHESS_TOKEN http username max_games
        time_control).games_countField = some (resp.lines.countP Server.isRecordLine) ∧
    (Server.fetch_user_games LICHESS_TOKEN http username max_games
        time_control).gamesField = some (resp.lines.filterMap Server.lineSummary) ∧
    (resp.lines.countP Server.isRecordLine = 0 →
      Server.fetch_user_games LICHESS_TOKEN http username max_games time_control =
        Server.FetchResult.okEmpty username 0
          "No games found. User might have no public games or username doesn't exist." []) := by
  have hloop := parseGamesLoop_no_bad resp.lines [] hgood
  simp only [List.reverse_nil, List.nil_append] at hloop
  simp only [Server.fetch_user_games, htok, Bool.not_true, Bool.false_eq_true, if_false,
    hresp, hstatus, ne_eq, not_true_eq_false, reduceIte, hloop]
  by_cases hempty : resp.lines.filterMap Server.lineSummary = []
  · have hcount : resp.lines.countP Server.isRecordLine = 0 := by
      rw [← length_filterMap_lineSummary, hempty]
      rfl
    simp [hempty, hcount, Server.FetchResult.errorField, Server.FetchResult.games_countField,
      Server.FetchResult.gamesField]
  · have hcount : resp.lines.countP Server.isRecordLine =
        (resp.lines.filterMap Server.lineSummary).length :=
      (length_filterMap_lineSummary resp.lines).symm
    simp [hempty, hcount, Server.FetchResult.errorField, Server.FetchResult.games_countField,
      Server.FetchResult.gamesField, List.length_eq_zero, List.isEmpty_iff]

/-- Witness for C7 (amended): a 200 body with one blank line, one
malformed line and one record yields a success with exactly that record. -/
theorem C7_skip_malformed_amended_witness :
    (Server.fetch_user_games (some "t")
      (fun _ => ⟨200, "",
        [Server.NdjsonLine.blankLine, Server.NdjsonLine.malformed "oops",
         Server.NdjsonLine.record ⟨some "g1", none, none, none, none, none, none, none⟩]⟩)
      "alice" 10 none).games_countField = some 1 ∧
    (Server.fetch_user_games (some "t")
      (fun _ => ⟨200, "",
        [Server.NdjsonLine.blankLine, Server.NdjsonLine.malformed "oops",
         Server.NdjsonLine.record ⟨some "g1", none, none, none, none, none, none, none⟩]⟩)
      "alice" 10 none).errorField = none := by
  have h := C7_skip_malformed_amended (some "t")
    (fun _ => ⟨200, "",
      [Server.NdjsonLine.blankLine, Server.NdjsonLine.malformed "oops",
       Server.NdjsonLine.record ⟨some "g1", none, none, none, none, none, none, none⟩]⟩)
    "alice" 10 none
    ⟨200, "",
      [Server.NdjsonLine.blankLine, Server.NdjsonLine.malformed "oops",
       Server.NdjsonLine.record ⟨some "g1", none, none, none, none, none, none, none⟩]⟩
    rfl rfl rfl (by intro e et; simp)
  exact ⟨h.2.1, h.1⟩

/-- C8 counterexample: an engine analysis result that contains no
principal line at all (no "pv" entry, as python-chess returns for example
on already-decided positions) makes `result["pv"]` raise `KeyError`, so
analyze_position returns an error response — not a success response with
an absent best move as the claim states. -/
theorem C8_missing_pv_counterexample :
    Server.analyze_position 18 (fun _ _ => ⟨some ⟨Server.Score.cp 0⟩, none⟩)
      Chess.startFen none = Server.AnalyzeResult.failure "'pv'" ∧
    (Server.analyze_position 18 (fun _ _ => ⟨some ⟨Server.Score.cp 0⟩, none⟩)
      Chess.startFen none).isOk = false ∧
    (Server.analyze_position 18 (fun _ _ => ⟨some ⟨Server.Score.cp 0⟩, none⟩)
      Chess.startFen none).best_moveField = none := by
  refine ⟨?_, ?_, ?_⟩ <;> decide

/-- C8 (amended): when the engine result carries a pv entry, the response
is a success whose best move is the line's first move (absent when the
entry is an empty list) and whose principal variation is at most the first
5 moves of the line; when the pv entry is missing entirely, the response
is the error response for the KeyError, not a success. -/
theorem C8_pv_handling_amended (STOCKFISH_DEPTH : Int)
    (engineAnalyse : Chess.Position → Server.Limit → Server.InfoDict)
    (fen : String) (depth : Option Int) (b : Chess.Position)
    (sc : Server.PovScore) (pvl : List Chess.Move)
    (hb : Chess.parseFen fen = some b) :
    (engineAnalyse b (Server.applied_limit STOCKFISH_DEPTH depth) = ⟨some sc, some pvl⟩ →
      (Server.analyze_position STOCKFISH_DEPTH engineAnalyse fen depth).isOk = true ∧
      (Server.analyze_position STOCKFISH_DEPTH engineAnalyse fen depth).best_moveField =
        some (pvl.head?.map Chess.Move.uci) ∧
      (Server.analyze_position STOCKFISH_DEPTH engineAnalyse fen depth).pvField =
        some ((pvl.take 5).map Chess.Move.uci) ∧
      ((pvl.take 5).map Chess.Move.uci).length ≤ 5) ∧
    (engineAnalyse b (Server.applied_limit STOCKFISH_DEPTH depth) = ⟨some sc, none⟩ →
      Server.analyze_position STOCKFISH_DEPTH engineAnalyse fen depth =
        Server.AnalyzeResult.failure "'pv'") := by
  constructor
  · intro heng
    have hlen : ((pvl.take 5).map Chess.Move.uci).length ≤ 5 := by
      simp [List.length_take]
    refine ⟨?_, ?_, ?_, hlen⟩ <;>
    · simp only [Server.analyze_position, hb, heng]
      cases pvl <;>
        simp [Server.AnalyzeResult.isOk, Server.AnalyzeResult.best_moveField,
          Server.AnalyzeResult.pvField]
  · intro heng
    simp only [Server.analyze_position, hb, heng]

/-- Witness for C8 (amended): a present-but-empty pv entry yields a
success with best move absent and empty principal variation. -/
theorem C8_pv_handling_amended_witness :
    (Server.analyze_position 18 (fun _ _ => ⟨some ⟨Server.Score.cp 0⟩, some []⟩)
      Chess.startFen none).isOk = true ∧
    (Server.analyze_position 18 (fun _ _ => ⟨some ⟨Server.Score.cp 0⟩, some []⟩)
      Chess.startFen none).best_moveField = some none ∧
    (Server.analyze_position 18 (fun _ _ => ⟨some ⟨Server.Score.cp 0⟩, some []⟩)
      Chess.startFen none).pvField = some [] := by
  have h := (C8_pv_handling_amended 18 (fun _ _ => ⟨some ⟨Server.Score.cp 0⟩, some []⟩)
    Chess.startFen none startPos ⟨Server.Score.cp 0⟩ [] (by decide)).1 rfl
  exact ⟨h.1, h.2.1, h.2.2.1⟩
